import Mathlib

/-!
Verification of the voice-generation library's generation pipeline.

The Python source is shallowly embedded:
* a pydub `AudioSegment` is modelled as a list of integer samples at one
  sample per millisecond, so `len(audio)` (pydub reports milliseconds)
  becomes `List.length`, slicing becomes `take`/`drop`, and `+`
  (concatenation) becomes `++`;
* machine arithmetic on durations is `Nat` (Python ints are unbounded and
  all durations in scope are non-negative); Python float quantities that
  feed comparisons (backoff intervals, timestamps) are modelled as `ℚ`,
  which is exact for every value the claims touch;
* fallible Python code (raised exceptions) returns `Except`/`Option`;
* Python dicts are association lists with last-write-wins insertion, and
  `json.dumps(..., sort_keys=True)` followed by SHA-256 is modelled by the
  key-sorted association list itself (the serialization is injective on
  dicts and the hash is content addressing).
-/

namespace VoiceGen

/-- One audio buffer: a pydub `AudioSegment`, one integer sample per
millisecond.  `0` is a silent sample. -/
abbrev Audio := List Int

/-- `AudioSegment.silent(duration=d)`: `d` milliseconds of silence. -/
def silent (d : Nat) : Audio := List.replicate d 0

/-! ## AudioProcessor (src/processors/audio.py) -/

/-- `AudioProcessor.round_down_to_previous_second`: `(ms // 1000) * 1000`. -/
def round_down_to_previous_second (ms : Nat) : Nat :=
  ms / 1000 * 1000

/-- `AudioProcessor.round_up_to_next_second`: `math.ceil(ms / 1000) * 1000`,
with the exact ceiling written in `Nat` arithmetic. -/
def round_up_to_next_second (ms : Nat) : Nat :=
  (ms + 999) / 1000 * 1000

/-- `AudioProcessor.trim_to_whole_seconds`: pad with silence up to the
rounded-up target if short, else slice `audio[:target]`. -/
def trim_to_whole_seconds (audio : Audio) : Audio :=
  let current_duration_ms := audio.length
  let target_duration_ms := round_up_to_next_second current_duration_ms
  if current_duration_ms < target_duration_ms then
    audio ++ silent (target_duration_ms - current_duration_ms)
  else
    audio.take target_duration_ms

/-- `AudioProcessor.pad_to_whole_seconds`: append silence up to the next
whole-second boundary; never truncates. -/
def pad_to_whole_seconds (audio : Audio) : Audio :=
  let current_length_ms := audio.length
  let target_length_ms := round_up_to_next_second current_length_ms
  let padding_ms := target_length_ms - current_length_ms
  if padding_ms > 0 then audio ++ silent padding_ms
  else audio

/-- pydub `a.append(b, crossfade=c)`: the last `c` ms of `a` overlap the
first `c` ms of `b`.  The overlap is modelled as sample overlay; the fade
gain curve is abstracted away (no theorem below depends on this branch,
which the source only takes when `crossfade_ms > 0`). -/
def appendCrossfade (a b : Audio) (c : Nat) : Audio :=
  a.take (a.length - c)
    ++ List.zipWith (· + ·) (a.drop (a.length - c)) (b.take c)
    ++ b.drop c

/-- `AudioProcessor.stitch`: raises `ValueError` on an empty list, returns
the single element unchanged, otherwise folds the remaining buffers onto
the first with an optional crossfade or an optional silence gap. -/
def stitch (segments : List Audio) (gap_ms : Nat := 0) (crossfade_ms : Nat := 0) :
    Except String Audio :=
  match segments with
  | [] => .error "Cannot stitch empty segment list"
  | [x] => .ok x
  | first :: rest =>
      .ok (rest.foldl
        (fun result segment =>
          if crossfade_ms > 0 then
            appendCrossfade result segment crossfade_ms
          else if gap_ms > 0 then
            result ++ silent gap_ms ++ segment
          else
            result ++ segment)
        first)

@[simp] theorem silent_length (d : Nat) : (silent d).length = d := by
  simp [silent]

theorem round_up_ge (ms : Nat) : ms ≤ round_up_to_next_second ms := by
  unfold round_up_to_next_second; omega

theorem round_up_dvd (ms : Nat) : 1000 ∣ round_up_to_next_second ms :=
  Dvd.intro_left _ rfl

theorem round_down_dvd (ms : Nat) : 1000 ∣ round_down_to_previous_second ms :=
  Dvd.intro_left _ rfl

theorem round_up_min (ms m : Nat) (hm : ms ≤ m) (hd : 1000 ∣ m) :
    round_up_to_next_second ms ≤ m := by
  unfold round_up_to_next_second
  obtain ⟨k, rfl⟩ := hd
  omega

/-- A multiple of 1000 rounds up to itself. -/
theorem round_up_of_dvd (ms : Nat) (hd : 1000 ∣ ms) :
    round_up_to_next_second ms = ms := by
  unfold round_up_to_next_second
  obtain ⟨k, rfl⟩ := hd
  omega

/-- `trim_to_whole_seconds` is the input followed by trailing silence up to
the rounded-up duration. -/
theorem trim_eq_pad_silence (a : Audio) :
    trim_to_whole_seconds a =
      a ++ silent (round_up_to_next_second a.length - a.length) := by
  unfold trim_to_whole_seconds
  by_cases h : a.length < round_up_to_next_second a.length
  · simp [h]
  · have hge := round_up_ge a.length
    have heq : round_up_to_next_second a.length = a.length := by omega
    simp [h, heq, silent]

/-- `pad_to_whole_seconds` is the input followed by the same trailing
silence. -/
theorem pad_eq_pad_silence (a : Audio) :
    pad_to_whole_seconds a =
      a ++ silent (round_up_to_next_second a.length - a.length) := by
  unfold pad_to_whole_seconds
  by_cases h : round_up_to_next_second a.length - a.length > 0
  · simp [h]
  · simp [h, silent]
    omega

theorem trim_length (a : Audio) :
    (trim_to_whole_seconds a).length = round_up_to_next_second a.length := by
  rw [trim_eq_pad_silence]
  have := round_up_ge a.length
  simp; omega

/-- C9, claim instance check on a 1500 ms buffer. -/
example :
    trim_to_whole_seconds (List.replicate 1500 (7 : Int)) =
      pad_to_whole_seconds (List.replicate 1500 (7 : Int)) := by
  rw [trim_eq_pad_silence, pad_eq_pad_silence]

/-- C9: `trim_to_whole_seconds` and `pad_to_whole_seconds` agree on every
buffer; both return the input padded with trailing silence up to the
smallest multiple of 1000 ms that is ≥ the input's duration, so the
truncation branch of `trim_to_whole_seconds` never removes audio content. -/
theorem trim_pad_extensionally_equal (a : Audio) :
    trim_to_whole_seconds a = pad_to_whole_seconds a ∧
    trim_to_whole_seconds a =
      a ++ silent (round_up_to_next_second a.length - a.length) ∧
    a.length ≤ round_up_to_next_second a.length ∧
    1000 ∣ round_up_to_next_second a.length ∧
    (∀ m, a.length ≤ m → 1000 ∣ m → round_up_to_next_second a.length ≤ m) := by
  refine ⟨?_, trim_eq_pad_silence a, round_up_ge a.length,
    round_up_dvd a.length, fun m hm hd => round_up_min _ m hm hd⟩
  rw [trim_eq_pad_silence, pad_eq_pad_silence]

/-- C1 counterexample: at `d = 500`,
`round_down(round_up(500)) = 1000 > 500`, so the claimed chain
`round_down(round_up(d)) ≤ d` fails. -/
theorem c1_round_trip_counterexample :
    round_down_to_previous_second (round_up_to_next_second 500) = 1000 ∧
    ¬ round_down_to_previous_second (round_up_to_next_second 500) ≤ 500 := by
  decide

/-- C1 (amended): for every non-negative duration `d` in milliseconds,
`round_up(round_down(d)) ≤ d ≤ round_up(d)`, and both `round_down(d)` and
`round_up(d)` are multiples of 1000. -/
theorem c1_rounding_amended (d : Nat) :
    round_up_to_next_second (round_down_to_previous_second d) ≤ d ∧
    d ≤ round_up_to_next_second d ∧
    1000 ∣ round_down_to_previous_second d ∧
    1000 ∣ round_up_to_next_second d := by
  refine ⟨?_, round_up_ge d, round_down_dvd d, round_up_dvd d⟩
  rw [round_up_of_dvd _ (round_down_dvd d)]
  unfold round_down_to_previous_second
  omega

/-- Length of the stitching fold in the no-crossfade case: each of the
`rest` buffers contributes its own length plus one `gap_ms` gap. -/
theorem stitch_fold_length (gap_ms : Nat) (rest : List Audio) (first : Audio) :
    (rest.foldl
      (fun result segment =>
        if (0 : Nat) > 0 then appendCrossfade result segment 0
        else if gap_ms > 0 then result ++ silent gap_ms ++ segment
        else result ++ segment)
      first).length
      = first.length + (rest.map List.length).sum + gap_ms * rest.length := by
  induction rest generalizing first with
  | nil => simp
  | cons a rest ih =>
      simp only [List.foldl_cons, ih]
      by_cases hg : gap_ms > 0
      · simp [hg]
        ring
      · have : gap_ms = 0 := by omega
        simp [this, Nat.add_assoc]

/-- C5: `stitch` is the identity on singletons, fails on the empty list,
and in the no-crossfade modes the output duration is the sum of the input
durations plus one gap per adjacent pair. -/
theorem stitch_duration_spec (x : Audio) (g c : Nat) (l : List Audio) :
    stitch [x] g c = .ok x ∧
    (stitch [] g c).isOk = false ∧
    (l ≠ [] → ∃ r, stitch l 0 0 = .ok r ∧
      r.length = (l.map List.length).sum) ∧
    (l ≠ [] → 0 < g → ∃ r, stitch l g 0 = .ok r ∧
      r.length = (l.map List.length).sum + g * (l.length - 1)) := by
  refine ⟨rfl, rfl, ?_, ?_⟩
  · intro hl
    match l, hl with
    | [y], _ => exact ⟨y, rfl, by simp⟩
    | first :: b :: rest, _ =>
        refine ⟨_, rfl, ?_⟩
        rw [stitch_fold_length 0 (b :: rest) first]
        simp
  · intro hl hg
    match l, hl with
    | [y], _ => exact ⟨y, rfl, by simp⟩
    | first :: b :: rest, _ =>
        refine ⟨_, rfl, ?_⟩
        rw [stitch_fold_length g (b :: rest) first]
        simp [Nat.mul_comm]

/-- C5 witness: the theorem instantiated on concrete buffers. -/
theorem stitch_duration_spec_witness :
    stitch [[(1 : Int), 2]] 5 7 = .ok [(1 : Int), 2] ∧
    (stitch [] 5 7).isOk = false ∧
    ([[(1 : Int)], [2, 3]] ≠ ([] : List Audio) →
      ∃ r, stitch [[(1 : Int)], [2, 3]] 0 0 = .ok r ∧
        r.length = ([[(1 : Int)], [2, 3]].map List.length).sum) ∧
    ([[(1 : Int)], [2, 3]] ≠ ([] : List Audio) → 0 < 5 →
      ∃ r, stitch [[(1 : Int)], [2, 3]] 5 0 = .ok r ∧
        r.length = ([[(1 : Int)], [2, 3]].map List.length).sum +
          5 * ([[(1 : Int)], [2, 3]].length - 1)) :=
  stitch_duration_spec [(1 : Int), 2] 5 7 [[(1 : Int)], [2, 3]]

/-- C9 witness: the theorem instantiated on a concrete 1500 ms buffer. -/
theorem trim_pad_extensionally_equal_witness :
    trim_to_whole_seconds (silent 1500) = pad_to_whole_seconds (silent 1500) :=
  (trim_pad_extensionally_equal (silent 1500)).1

/-! ## ElevenLabs client retry loop (src/clients/elevenlabs.py) -/

/-- A `TTSError` raised by `_call_api`: message, optional HTTP status code,
optional response text. -/
structure TtsErr where
  message : String
  statusCode : Option Nat := none
  responseText : Option String := none
  deriving DecidableEq, Repr

/-- The non-retry test `e.status_code and 400 <= e.status_code < 500`
(Python truthiness: a missing or zero status code is falsy). -/
def TtsErr.isClientError (e : TtsErr) : Bool :=
  match e.statusCode with
  | some c => decide (c ≠ 0) && decide (400 ≤ c) && decide (c < 500)
  | none => false

/-- The body of `_call_api_with_retry`'s `for attempt in range(max_retries)`
loop.  `attempts j` is the outcome of the `j`-th invocation of `_call_api`;
the returned triple is (result, number of `_call_api` invocations, list of
back-off sleep intervals in seconds).  The fuel argument counts the
remaining loop iterations; falling out of the loop raises `last_error`
(an `Option`, since with `max_retries = 0` Python would raise `None`). -/
def retryGo (max_retries : Nat) (factor : ℚ) (attempts : Nat → Except TtsErr Audio) :
    Nat → Nat → Option TtsErr → Nat → List ℚ →
      Except (Option TtsErr) Audio × Nat × List ℚ
  | _, 0, last_error, calls, sleeps => (.error last_error, calls, sleeps)
  | attempt, fuel + 1, _, calls, sleeps =>
      match attempts attempt with
      | .ok audio => (.ok audio, calls + 1, sleeps)
      | .error e =>
          if e.isClientError then
            (.error (some e), calls + 1, sleeps)
          else if attempt < max_retries - 1 then
            retryGo max_retries factor attempts (attempt + 1) fuel (some e)
              (calls + 1) (sleeps ++ [factor ^ attempt])
          else
            retryGo max_retries factor attempts (attempt + 1) fuel (some e)
              (calls + 1) sleeps

/-- `ElevenLabsClient._call_api_with_retry`: run the retry loop from
attempt 0 with no last error, no calls made and no sleeps taken. -/
def call_api_with_retry (max_retries : Nat) (retry_backoff_factor : ℚ)
    (attempts : Nat → Except TtsErr Audio) :
    Except (Option TtsErr) Audio × Nat × List ℚ :=
  retryGo max_retries retry_backoff_factor attempts 0 max_retries none 0 []

/-- A retryable server error whose response text tags which attempt it
came from. -/
def serverErr (j : Nat) : TtsErr :=
  ⟨"ElevenLabs API returned error", some 500, some (toString j)⟩

/-- A non-retryable client error (HTTP 404). -/
def clientErr404 : TtsErr :=
  ⟨"ElevenLabs API returned error", some 404, some "not found"⟩

/-- C2: with `max_retries = 3` and backoff factor 2.0:
two retryable 5xx failures followed by a success make exactly 3 API calls
and sleep exactly twice, 1 s then 2 s (the second interval double the
first); a first-call 4xx failure raises after exactly 1 call with no
sleep; and three retryable failures make 3 calls, sleep twice, and raise
the last error (the one tagged from attempt 2). -/
theorem c2_retry_policy :
    call_api_with_retry 3 2
        (fun j => if j < 2 then .error (serverErr j) else .ok [1]) =
      (.ok [1], 3, [1, 2]) ∧
    (2 : ℚ) = 2 * 1 ∧
    call_api_with_retry 3 2 (fun _ => .error clientErr404) =
      (.error (some clientErr404), 1, []) ∧
    call_api_with_retry 3 2 (fun j => .error (serverErr j)) =
      (.error (some (serverErr 2)), 3, [1, 2]) := by
  refine ⟨?_, by norm_num, ?_, ?_⟩ <;>
    simp [call_api_with_retry, retryGo, serverErr, clientErr404,
      TtsErr.isClientError, pow_succ]

/-! ## AudioCache (src/clients/cache.py) -/

/-- A JSON-serializable value in a voice-configuration dict. -/
inductive Val where
  | vStr (s : String)
  | vNum (q : ℚ)
  | vBool (b : Bool)
  deriving DecidableEq, Repr

/-- A Python dict with string keys: an association list whose key order is
insertion order. -/
abbrev Dict := List (String × Val)

/-- Python dict insertion: update in place if the key exists, else append. -/
def dictInsert (d : Dict) (k : String) (v : Val) : Dict :=
  match d with
  | [] => [(k, v)]
  | (k', v') :: rest =>
      if k' = k then (k, v) :: rest else (k', v') :: dictInsert rest k v

/-- Python dict lookup. -/
def dictLookup (k : String) : Dict → Option Val
  | [] => none
  | (k', v) :: rest => if k' = k then some v else dictLookup k rest

/-- The keys of a dict, in insertion order. -/
def dictKeys (d : Dict) : List String := d.map Prod.fst

/-- Python string `<=`: lexicographic comparison by Unicode code point
(the order `json.dumps(..., sort_keys=True)` sorts by). -/
def strLeB (a b : String) : Bool :=
  go a.toList b.toList
where
  go : List Char → List Char → Bool
    | [], _ => true
    | _ :: _, [] => false
    | c :: cs, d :: ds =>
        if c.toNat < d.toNat then true
        else if d.toNat < c.toNat then false
        else go cs ds

/-- `AudioCache._compute_key`, up to serialization: the dict literal
`{"text": text, "previous_text": previous_text or "",
"next_text": next_text or "", **voice_config}` (later keys override
earlier ones, as in Python). -/
def buildKeyData (text : String) (previous_text next_text : Option String)
    (voice_config : Dict) : Dict :=
  voice_config.foldl (fun d kv => dictInsert d kv.1 kv.2)
    [("text", .vStr text),
     ("previous_text", .vStr (previous_text.getD "")),
     ("next_text", .vStr (next_text.getD ""))]

/-- The cache key: the key-sorted dict, standing for
`sha256(json.dumps(data, sort_keys=True))` — the sorted serialization is
injective on dicts and SHA-256 is content addressing. -/
def compute_key (text : String) (previous_text next_text : Option String)
    (voice_config : Dict) : Dict :=
  List.insertionSort (fun a b => strLeB a.1 b.1 = true)
    (buildKeyData text previous_text next_text voice_config)

/-- The `{hash}.meta.json` sidecar record written by `AudioCache.set`. -/
structure CacheMeta where
  timestamp : ℚ
  text : String
  text_length : Nat
  audio_duration_ms : Nat
  voice_config : Dict
  deriving DecidableEq

/-- The cache directory: the `{hash}.wav` blobs and `{hash}.meta.json`
sidecars, each indexed by cache key, plus the configured TTL in seconds. -/
structure CacheState where
  audioFiles : Dict → Option Audio
  metaFiles : Dict → Option CacheMeta
  ttl_seconds : ℚ

/-- A fresh cache directory. -/
def empty_cache (ttl_seconds : ℚ) : CacheState :=
  ⟨fun _ => none, fun _ => none, ttl_seconds⟩

/-- `AudioCache._delete_entry`: remove both the blob and the sidecar. -/
def delete_entry (s : CacheState) (key : Dict) : CacheState :=
  { s with
    audioFiles := fun k => if k = key then none else s.audioFiles k,
    metaFiles := fun k => if k = key then none else s.metaFiles k }

/-- `AudioCache.get`: miss unless both files exist; on an entry older than
the TTL, delete the pair and miss; otherwise return the decoded audio
(the WAV round-trip is modelled as lossless). -/
def cache_get (s : CacheState) (text : String)
    (previous_text next_text : Option String) (voice_config : Dict)
    (now : ℚ) : Option Audio × CacheState :=
  let key := compute_key text previous_text next_text voice_config
  match s.audioFiles key, s.metaFiles key with
  | some audio, some metadata =>
      let age_seconds := now - metadata.timestamp
      if age_seconds > s.ttl_seconds then
        (none, delete_entry s key)
      else
        (some audio, s)
  | _, _ => (none, s)

/-- `AudioCache.set`: write the blob and the sidecar for the computed key
(the write path that succeeds; the failure branch only removes the partial
pair again). -/
def cache_set (s : CacheState) (text : String)
    (previous_text next_text : Option String) (voice_config : Dict)
    (audio : Audio) (now : ℚ) : CacheState :=
  let key := compute_key text previous_text next_text voice_config
  { s with
    audioFiles := fun k => if k = key then some audio else s.audioFiles k,
    metaFiles := fun k =>
      if k = key then
        some ⟨now, text, text.length, audio.length, voice_config⟩
      else s.metaFiles k }

/-- C8: looking up an entry whose age strictly exceeds the TTL reports a
miss and, as a side effect, deletes both the audio blob and the metadata
sidecar from the cache directory. -/
theorem cache_get_expired_deletes (s : CacheState) (text : String)
    (previous_text next_text : Option String) (voice_config : Dict)
    (now : ℚ) (a : Audio) (m : CacheMeta)
    (ha : s.audioFiles (compute_key text previous_text next_text voice_config) = some a)
    (hm : s.metaFiles (compute_key text previous_text next_text voice_config) = some m)
    (hexp : now - m.timestamp > s.ttl_seconds) :
    cache_get s text previous_text next_text voice_config now =
      (none, delete_entry s (compute_key text previous_text next_text voice_config)) ∧
    (cache_get s text previous_text next_text voice_config now).2.audioFiles
      (compute_key text previous_text next_text voice_config) = none ∧
    (cache_get s text previous_text next_text voice_config now).2.metaFiles
      (compute_key text previous_text next_text voice_config) = none := by
  have h1 : cache_get s text previous_text next_text voice_config now =
      (none, delete_entry s (compute_key text previous_text next_text voice_config)) := by
    unfold cache_get
    simp only []
    rw [ha, hm]
    simp [hexp]
  refine ⟨h1, ?_, ?_⟩ <;> rw [h1] <;> simp [delete_entry]

theorem dictKeys_cons (x : String × Val) (d : Dict) :
    dictKeys (x :: d) = x.1 :: dictKeys d := rfl

theorem dictKeys_append (d1 d2 : Dict) :
    dictKeys (d1 ++ d2) = dictKeys d1 ++ dictKeys d2 := by
  simp [dictKeys]

/-- Inserting a fresh key appends it. -/
theorem dictInsert_fresh (d : Dict) (k : String) (v : Val)
    (h : k ∉ dictKeys d) : dictInsert d k v = d ++ [(k, v)] := by
  induction d with
  | nil => rfl
  | cons x rest ih =>
      simp only [dictKeys_cons, List.mem_cons] at h
      push_neg at h
      simp [dictInsert, Ne.symm h.1, ih h.2]

/-- Folding dict insertion of all-fresh, pairwise-distinct keys appends the
whole association list. -/
theorem foldl_dictInsert_fresh (vc : Dict) :
    ∀ d : Dict, (∀ k ∈ dictKeys vc, k ∉ dictKeys d) → (dictKeys vc).Nodup →
    vc.foldl (fun d kv => dictInsert d kv.1 kv.2) d = d ++ vc := by
  induction vc with
  | nil => intro d _ _; simp
  | cons kv rest ih =>
      intro d hfresh hnd
      simp only [dictKeys_cons] at hfresh hnd
      have hnd' := List.nodup_cons.mp hnd
      rw [List.foldl_cons,
        dictInsert_fresh d kv.1 kv.2 (hfresh kv.1 (List.mem_cons_self _ _)),
        ih (d ++ [(kv.1, kv.2)]) ?_ hnd'.2]
      · simp
      · intro k hk
        rw [dictKeys_append]
        simp only [List.mem_append]
        rintro (hd | hd)
        · exact hfresh k (List.mem_cons_of_mem _ hk) hd
        · simp [dictKeys] at hd
          exact hnd'.1 (hd ▸ hk)

theorem dictLookup_eq_none (k : String) (d : Dict) (h : k ∉ dictKeys d) :
    dictLookup k d = none := by
  induction d with
  | nil => rfl
  | cons x rest ih =>
      simp only [dictKeys_cons, List.mem_cons] at h
      push_neg at h
      simp [dictLookup, Ne.symm h.1, ih h.2]

/-- `dictLookup` is invariant under permutation when keys are unique. -/
theorem perm_dictLookup {l1 l2 : Dict} (h : l1.Perm l2) :
    (dictKeys l1).Nodup → ∀ k, dictLookup k l1 = dictLookup k l2 := by
  induction h with
  | nil => intro _ _; rfl
  | cons x h ih =>
      intro nd k
      obtain ⟨kx, vx⟩ := x
      rw [dictKeys_cons] at nd
      by_cases hk : kx = k
      · simp [dictLookup, hk]
      · simp [dictLookup, hk, ih (List.nodup_cons.mp nd).2 k]
  | swap x y l =>
      intro nd k
      obtain ⟨kx, vx⟩ := x
      obtain ⟨ky, vy⟩ := y
      rw [dictKeys_cons, dictKeys_cons] at nd
      have hxy : ky ≠ kx := by
        have := (List.nodup_cons.mp nd).1
        simp only [List.mem_cons] at this
        push_neg at this
        exact this.1
      by_cases h1 : ky = k <;> by_cases h2 : kx = k <;>
        simp [dictLookup, h1, h2]
      exact absurd (h1.trans h2.symm) hxy
  | trans h1 h2 ih1 ih2 =>
      intro nd k
      rw [ih1 nd k, ih2 ((h1.map Prod.fst).nodup nd) k]

/-- Under the hypotheses of interest (a real voice-configuration dict has
unique keys, none of them the reserved context keys), the key-data dict is
the three context fields followed by the voice configuration. -/
theorem buildKeyData_eq (t : String) (p n : Option String) (vc : Dict)
    (hnd : (dictKeys vc).Nodup)
    (ht : "text" ∉ dictKeys vc) (hp : "previous_text" ∉ dictKeys vc)
    (hn : "next_text" ∉ dictKeys vc) :
    buildKeyData t p n vc =
      [("text", .vStr t), ("previous_text", .vStr (p.getD "")),
       ("next_text", .vStr (n.getD ""))] ++ vc := by
  unfold buildKeyData
  apply foldl_dictInsert_fresh vc _ _ hnd
  intro k hk
  simp only [dictKeys, List.map_cons, List.map_nil, List.mem_cons,
    List.not_mem_nil, or_false]
  rintro (rfl | rfl | rfl)
  · exact ht hk
  · exact hp hk
  · exact hn hk

theorem buildKeyData_nodup (t : String) (p n : Option String) (vc : Dict)
    (hnd : (dictKeys vc).Nodup)
    (ht : "text" ∉ dictKeys vc) (hp : "previous_text" ∉ dictKeys vc)
    (hn : "next_text" ∉ dictKeys vc) :
    (dictKeys (buildKeyData t p n vc)).Nodup := by
  rw [buildKeyData_eq t p n vc hnd ht hp hn, dictKeys_append,
    List.nodup_append]
  refine ⟨?_, hnd, ?_⟩
  · simp [dictKeys]
  intro k hk
  simp only [dictKeys, List.map_cons, List.map_nil, List.mem_cons,
    List.not_mem_nil, or_false] at hk
  rcases hk with rfl | rfl | rfl
  · exact ht
  · exact hp
  · exact hn

theorem lookup_build_text (t : String) (p n : Option String) (vc : Dict)
    (hnd : (dictKeys vc).Nodup)
    (ht : "text" ∉ dictKeys vc) (hp : "previous_text" ∉ dictKeys vc)
    (hn : "next_text" ∉ dictKeys vc) :
    dictLookup "text" (buildKeyData t p n vc) = some (.vStr t) := by
  rw [buildKeyData_eq t p n vc hnd ht hp hn]
  rfl

theorem lookup_build_prev (t : String) (p n : Option String) (vc : Dict)
    (hnd : (dictKeys vc).Nodup)
    (ht : "text" ∉ dictKeys vc) (hp : "previous_text" ∉ dictKeys vc)
    (hn : "next_text" ∉ dictKeys vc) :
    dictLookup "previous_text" (buildKeyData t p n vc) =
      some (.vStr (p.getD "")) := by
  rw [buildKeyData_eq t p n vc hnd ht hp hn]
  rfl

theorem lookup_build_next (t : String) (p n : Option String) (vc : Dict)
    (hnd : (dictKeys vc).Nodup)
    (ht : "text" ∉ dictKeys vc) (hp : "previous_text" ∉ dictKeys vc)
    (hn : "next_text" ∉ dictKeys vc) :
    dictLookup "next_text" (buildKeyData t p n vc) =
      some (.vStr (n.getD "")) := by
  rw [buildKeyData_eq t p n vc hnd ht hp hn]
  rfl

theorem lookup_build_other (t : String) (p n : Option String) (vc : Dict)
    (k : String)
    (hkt : k ≠ "text") (hkp : k ≠ "previous_text") (hkn : k ≠ "next_text")
    (hnd : (dictKeys vc).Nodup)
    (ht : "text" ∉ dictKeys vc) (hp : "previous_text" ∉ dictKeys vc)
    (hn : "next_text" ∉ dictKeys vc) :
    dictLookup k (buildKeyData t p n vc) = dictLookup k vc := by
  rw [buildKeyData_eq t p n vc hnd ht hp hn]
  simp only [List.cons_append, List.nil_append, dictLookup]
  rw [if_neg (Ne.symm hkt), if_neg (Ne.symm hkp), if_neg (Ne.symm hkn)]
  rfl

/-- `_compute_key` separates genuinely distinct inputs: equal keys force
equal text, equal canonicalized contexts (`None` and `""` both canonicalize
to `""`) and extensionally equal voice-configuration dicts. -/
theorem compute_key_inj (t1 t2 : String) (p1 n1 p2 n2 : Option String)
    (vc1 vc2 : Dict)
    (hnd1 : (dictKeys vc1).Nodup) (hnd2 : (dictKeys vc2).Nodup)
    (ht1 : "text" ∉ dictKeys vc1) (hp1 : "previous_text" ∉ dictKeys vc1)
    (hn1 : "next_text" ∉ dictKeys vc1)
    (ht2 : "text" ∉ dictKeys vc2) (hp2 : "previous_text" ∉ dictKeys vc2)
    (hn2 : "next_text" ∉ dictKeys vc2)
    (heq : compute_key t1 p1 n1 vc1 = compute_key t2 p2 n2 vc2) :
    t1 = t2 ∧ p1.getD "" = p2.getD "" ∧ n1.getD "" = n2.getD "" ∧
      ∀ k, dictLookup k vc1 = dictLookup k vc2 := by
  have hperm : (buildKeyData t1 p1 n1 vc1).Perm (buildKeyData t2 p2 n2 vc2) := by
    unfold compute_key at heq
    exact (List.perm_insertionSort _ _).symm.trans
      (by rw [heq]; exact List.perm_insertionSort _ _)
  have hall : ∀ k, dictLookup k (buildKeyData t1 p1 n1 vc1) =
      dictLookup k (buildKeyData t2 p2 n2 vc2) :=
    perm_dictLookup hperm (buildKeyData_nodup t1 p1 n1 vc1 hnd1 ht1 hp1 hn1)
  refine ⟨?_, ?_, ?_, ?_⟩
  · have := hall "text"
    rw [lookup_build_text t1 p1 n1 vc1 hnd1 ht1 hp1 hn1,
      lookup_build_text t2 p2 n2 vc2 hnd2 ht2 hp2 hn2] at this
    injection this with h
    injection h
  · have := hall "previous_text"
    rw [lookup_build_prev t1 p1 n1 vc1 hnd1 ht1 hp1 hn1,
      lookup_build_prev t2 p2 n2 vc2 hnd2 ht2 hp2 hn2] at this
    injection this with h
    injection h
  · have := hall "next_text"
    rw [lookup_build_next t1 p1 n1 vc1 hnd1 ht1 hp1 hn1,
      lookup_build_next t2 p2 n2 vc2 hnd2 ht2 hp2 hn2] at this
    injection this with h
    injection h
  · intro k
    by_cases hkt : k = "text"
    · subst hkt
      rw [dictLookup_eq_none _ _ ht1, dictLookup_eq_none _ _ ht2]
    by_cases hkp : k = "previous_text"
    · subst hkp
      rw [dictLookup_eq_none _ _ hp1, dictLookup_eq_none _ _ hp2]
    by_cases hkn : k = "next_text"
    · subst hkn
      rw [dictLookup_eq_none _ _ hn1, dictLookup_eq_none _ _ hn2]
    have := hall k
    rwa [lookup_build_other t1 p1 n1 vc1 k hkt hkp hkn hnd1 ht1 hp1 hn1,
      lookup_build_other t2 p2 n2 vc2 k hkt hkp hkn hnd2 ht2 hp2 hn2] at this

/-- C3 (amended): a `set` followed by a `get` with the identical four
inputs, while the entry is within its TTL, returns audio of equal
duration; and starting from a fresh cache, a `get` whose inputs genuinely
differ from the `set`'s — different text, different canonicalized previous
or next context (`None` and `""` canonicalize alike), or a
voice-configuration dict that differs at some key (the dict using none of
the reserved keys `text`/`previous_text`/`next_text`) — reports a miss. -/
theorem cache_round_trip_amended (s : CacheState)
    (t t2 : String) (p n p2 n2 : Option String) (vc vc2 : Dict)
    (audio : Audio) (tset tnow : ℚ) (ttl : ℚ) :
    (tnow - tset ≤ s.ttl_seconds →
      ∃ a', (cache_get (cache_set s t p n vc audio tset) t p n vc tnow).1 =
          some a' ∧ a'.length = audio.length) ∧
    ((dictKeys vc).Nodup → (dictKeys vc2).Nodup →
      "text" ∉ dictKeys vc → "previous_text" ∉ dictKeys vc →
      "next_text" ∉ dictKeys vc →
      "text" ∉ dictKeys vc2 → "previous_text" ∉ dictKeys vc2 →
      "next_text" ∉ dictKeys vc2 →
      (t ≠ t2 ∨ p.getD "" ≠ p2.getD "" ∨ n.getD "" ≠ n2.getD "" ∨
        (∃ k, dictLookup k vc ≠ dictLookup k vc2)) →
      (cache_get (cache_set (empty_cache ttl) t p n vc audio tset)
        t2 p2 n2 vc2 tnow).1 = none) := by
  constructor
  · intro httl
    refine ⟨audio, ?_, rfl⟩
    unfold cache_get cache_set
    simp only [if_pos rfl]
    have : ¬ tnow - tset > s.ttl_seconds := by exact not_lt.mpr httl
    simp [this]
  · intro hnd1 hnd2 ht1 hp1 hn1 ht2 hp2 hn2 hdiff
    have hkey : compute_key t2 p2 n2 vc2 ≠ compute_key t p n vc := by
      intro hk
      obtain ⟨he1, he2, he3, he4⟩ := compute_key_inj t2 t p2 n2 p n vc2 vc
        hnd2 hnd1 ht2 hp2 hn2 ht1 hp1 hn1 hk
      rcases hdiff with h | h | h | ⟨k, h⟩
      · exact h he1.symm
      · exact h he2.symm
      · exact h he3.symm
      · exact h (he4 k).symm
    unfold cache_get cache_set empty_cache
    simp [hkey]

/-- C3 witness: the theorem instantiated at a fresh cache with TTL 10 s,
a hit on identical inputs `"a"`, and a miss on differing text `"b"`. -/
theorem cache_round_trip_amended_witness :
    (∃ a', (cache_get (cache_set (empty_cache 10) "a" none none [] [1] 0)
        "a" none none [] 0).1 = some a' ∧ a'.length = ([1] : Audio).length) ∧
    (cache_get (cache_set (empty_cache 10) "a" none none [] [1] 0)
        "b" none none [] 0).1 = none := by
  constructor
  · exact (cache_round_trip_amended (empty_cache 10) "a" "b" none none none none
      [] [] [1] 0 0 10).1 (by norm_num [empty_cache])
  · exact (cache_round_trip_amended (empty_cache 10) "a" "b" none none none none
      [] [] [1] 0 0 10).2 (by simp [dictKeys]) (by simp [dictKeys])
      (by simp [dictKeys]) (by simp [dictKeys]) (by simp [dictKeys])
      (by simp [dictKeys]) (by simp [dictKeys]) (by simp [dictKeys])
      (Or.inl (by decide))

/-- C3 counterexample: `set` with `previous_text = ""` followed by `get`
with `previous_text = None` — exactly one of the four inputs differs, yet
`_compute_key` maps `None` and `""` to the same key (`previous_text or ""`),
so the `get` is a hit, not the claimed miss. -/
theorem cache_single_input_change_counterexample :
    (some "" : Option String) ≠ (none : Option String) ∧
    (cache_get
        (cache_set (empty_cache 10) "t" (some "") none
          [("voice_id", .vStr "v")] [5] 0)
        "t" none none [("voice_id", .vStr "v")] 0).1 = some [5] := by
  constructor
  · simp
  · have hkey : compute_key "t" none none [("voice_id", Val.vStr "v")] =
        compute_key "t" (some "") none [("voice_id", Val.vStr "v")] := by
      decide
    unfold cache_get cache_set empty_cache
    simp [hkey, show ¬ ((10 : ℚ) < 0) by norm_num]

/-- C8 witness: an entry cached at time 0 with a 10 s TTL, looked up at
time 11. -/
theorem cache_get_expired_deletes_witness :
    cache_get (cache_set (empty_cache 10) "t" none none [] [5] 0)
        "t" none none [] 11 =
      (none, delete_entry (cache_set (empty_cache 10) "t" none none [] [5] 0)
        (compute_key "t" none none [])) ∧
    (cache_get (cache_set (empty_cache 10) "t" none none [] [5] 0)
        "t" none none [] 11).2.audioFiles (compute_key "t" none none []) = none ∧
    (cache_get (cache_set (empty_cache 10) "t" none none [] [5] 0)
        "t" none none [] 11).2.metaFiles (compute_key "t" none none []) = none :=
  cache_get_expired_deletes (cache_set (empty_cache 10) "t" none none [] [5] 0)
    "t" none none [] 11 [5] ⟨0, "t", 1, 1, []⟩ rfl rfl
    (by norm_num [cache_set, empty_cache])

/-! ## MetadataBuilder._find_closest_audio_guide (src/processors/metadata.py) -/

/-- A static audio-guide table (`INHALE_AUDIO_MAP` / `EXHALE_AUDIO_MAP`): a
Python dict from millisecond durations to asset paths, iterated in
insertion order. -/
abbrev AudioMap := List (Nat × String)

/-- Dict lookup in an audio-guide table. -/
def mapLookup (d : Nat) : AudioMap → Option String
  | [] => none
  | (k, v) :: rest => if k = d then some v else mapLookup d rest

/-- `abs(duration_ms - available_duration)` over Python ints. -/
def absDiff (a b : Nat) : Nat := if a ≤ b then b - a else a - b

/-- Strict-improvement test against `closest_diff`, which starts at
`float('inf')` (modelled by `none`). -/
def improves (diff : Nat) (bestDiff : Option Nat) : Bool :=
  match bestDiff with
  | none => true
  | some b => decide (diff < b)

/-- The `for available_duration in audio_map.keys()` scan of
`_find_closest_audio_guide`: track `closest_duration` (initially `None`)
and `closest_diff`, updating on `diff <= tolerance_ms and
diff < closest_diff`. -/
def scanGo (d : Nat) : List Nat → Option Nat → Option Nat → Option Nat
  | [], best, _ => best
  | k :: rest, best, bestDiff =>
      if absDiff d k ≤ 2000 ∧ improves (absDiff d k) bestDiff then
        scanGo d rest (some k) (some (absDiff d k))
      else
        scanGo d rest best bestDiff

/-- `MetadataBuilder._find_closest_audio_guide`: `None` for a falsy target
or empty table; the exact entry on a key hit; otherwise the scan's
closest in-tolerance duration — returned through the truthiness test
`if closest_duration:`, so a closest duration of `0` also yields `None`. -/
def find_closest_audio_guide (duration_ms : Nat) (audio_map : AudioMap) :
    Option String :=
  if duration_ms = 0 ∨ audio_map = [] then none
  else
    match mapLookup duration_ms audio_map with
    | some v => some v
    | none =>
        match scanGo duration_ms (audio_map.map Prod.fst) none none with
        | some closest_duration =>
            if closest_duration ≠ 0 then mapLookup closest_duration audio_map
            else none
        | none => none

/-- If no remaining key strictly improves on the current best, the scan
keeps the current best. -/
theorem scanGo_stable (d : Nat) (ks : List Nat) (b bdv : Nat)
    (h : ∀ k ∈ ks, ¬(absDiff d k ≤ 2000 ∧ absDiff d k < bdv)) :
    scanGo d ks (some b) (some bdv) = some b := by
  induction ks with
  | nil => rfl
  | cons k rest ih =>
      have hk := h k (List.mem_cons_self _ _)
      rw [scanGo, if_neg (by simp [improves]; omega)]
      exact ih fun k' hk' => h k' (List.mem_cons_of_mem _ hk')

/-- If no key is within tolerance, the scan finds nothing. -/
theorem scanGo_none (d : Nat) (ks : List Nat)
    (h : ∀ k ∈ ks, ¬ absDiff d k ≤ 2000) :
    scanGo d ks none none = none := by
  induction ks with
  | nil => rfl
  | cons k rest ih =>
      rw [scanGo, if_neg (by simp [h k (List.mem_cons_self _ _)])]
      exact ih fun k' hk' => h k' (List.mem_cons_of_mem _ hk')

/-- With a strictly-unique in-tolerance minimizer `k0` among the remaining
keys, also beating the current best, the scan settles on `k0`. -/
theorem scanGo_unique_min (d k0 : Nat) :
    ∀ (ks : List Nat) (best bestDiff : Option Nat),
    k0 ∈ ks → absDiff d k0 ≤ 2000 →
    (∀ k' ∈ ks, k' ≠ k0 → absDiff d k0 < absDiff d k') →
    (match best, bestDiff with
      | none, none => True
      | some b, some bdv => bdv = absDiff d b ∧ absDiff d k0 < bdv
      | _, _ => False) →
    scanGo d ks best bestDiff = some k0 := by
  intro ks
  induction ks with
  | nil => intro _ _ h; simp at h
  | cons k rest ih =>
      intro best bestDiff hmem htol hmin hstate
      rw [scanGo]
      by_cases hk : k = k0
      · subst hk
        have hside : absDiff d k ≤ 2000 ∧ improves (absDiff d k) bestDiff := by
          refine ⟨htol, ?_⟩
          match best, bestDiff, hstate with
          | none, none, _ => simp [improves]
          | some b, some bdv, ⟨_, h2⟩ => simpa [improves] using h2
          | none, some bdv, hst => exact hst.elim
          | some b, none, hst => exact hst.elim
        rw [if_pos hside]
        apply scanGo_stable
        intro k' hk'
        by_cases hkk : k' = k
        · subst hkk
          exact fun hc => absurd hc.2 (lt_irrefl _)
        · exact fun hc => absurd hc.2
            (not_lt.mpr (le_of_lt (hmin k' (List.mem_cons_of_mem _ hk') hkk)))
      · have hmem' : k0 ∈ rest := by
          rcases List.mem_cons.mp hmem with h | h
          · exact absurd h.symm hk
          · exact h
        have hklt : absDiff d k0 < absDiff d k :=
          hmin k (List.mem_cons_self _ _) hk
        have hmin' : ∀ k' ∈ rest, k' ≠ k0 → absDiff d k0 < absDiff d k' :=
          fun k' h' => hmin k' (List.mem_cons_of_mem _ h')
        by_cases hcond : absDiff d k ≤ 2000 ∧ improves (absDiff d k) bestDiff
        · rw [if_pos hcond]
          exact ih (some k) (some (absDiff d k)) hmem' htol hmin' ⟨rfl, hklt⟩
        · rw [if_neg hcond]
          exact ih best bestDiff hmem' htol hmin' hstate

/-- C4 (amended): the nearest-match lookup returns the exact entry when the
nonzero target is a key; with no exact match it returns `None` when no
tabled duration is within the 2000 ms tolerance, and returns the strictly
closest in-tolerance tabled duration's entry provided that duration is
nonzero (a tabled duration of 0 is discarded by the `if closest_duration:`
truthiness test); a target of 0 always resolves to `None`.  In particular
4500 ms against `{4000, 6000}` resolves to the 4000 entry and 6500 ms
against `{4000}` resolves to `None`. -/
theorem c4_nearest_guide_amended (m : AudioMap) (d : Nat) (v : String) (k0 : Nat) :
    ((d = 0 ∨ m = []) → find_closest_audio_guide d m = none) ∧
    (d ≠ 0 → m ≠ [] → mapLookup d m = some v →
      find_closest_audio_guide d m = some v) ∧
    (d ≠ 0 → mapLookup d m = none →
      (∀ k ∈ m.map Prod.fst, ¬ absDiff d k ≤ 2000) →
      find_closest_audio_guide d m = none) ∧
    (d ≠ 0 → mapLookup d m = none → k0 ∈ m.map Prod.fst → k0 ≠ 0 →
      absDiff d k0 ≤ 2000 →
      (∀ k ∈ m.map Prod.fst, k ≠ k0 → absDiff d k0 < absDiff d k) →
      find_closest_audio_guide d m = mapLookup k0 m) ∧
    find_closest_audio_guide 4500 [(4000, "four"), (6000, "six")] = some "four" ∧
    find_closest_audio_guide 6500 [(4000, "four")] = none ∧
    find_closest_audio_guide 0 m = none := by
  refine ⟨?_, ?_, ?_, ?_, by decide, by decide, ?_⟩
  · intro h
    unfold find_closest_audio_guide
    rw [if_pos h]
  · intro h1 h2 h3
    unfold find_closest_audio_guide
    rw [if_neg (by simp [h1, h2])]
    rw [h3]
  · intro h1 h2 h3
    by_cases hm : m = []
    · unfold find_closest_audio_guide
      rw [if_pos (Or.inr hm)]
    · unfold find_closest_audio_guide
      rw [if_neg (by simp [h1, hm])]
      rw [h2, scanGo_none d _ h3]
  · intro h1 h2 h3 h4 h5 h6
    have hm : m ≠ [] := by
      intro hm
      subst hm
      simp at h3
    unfold find_closest_audio_guide
    rw [if_neg (by simp [h1, hm])]
    rw [h2, scanGo_unique_min d k0 (m.map Prod.fst) none none h3 h5 h6 trivial]
    simp [h4]
  · unfold find_closest_audio_guide
    rw [if_pos (Or.inl rfl)]

/-- C4 witness: the theorem's unique-minimizer clause instantiated at
target 4500 ms against the table `{4000 ↦ "four", 6000 ↦ "six"}`. -/
theorem c4_nearest_guide_amended_witness :
    find_closest_audio_guide 4500 [(4000, "four"), (6000, "six")] =
      mapLookup 4000 [(4000, "four"), (6000, "six")] :=
  (c4_nearest_guide_amended [(4000, "four"), (6000, "six")] 4500 "four"
    4000).2.2.2.1 (by decide) (by decide) (by decide) (by decide) (by decide)
    (by decide)

/-- C4 counterexample: target 1 ms against the table `{0 ↦ "zero"}` — no
exact match, and the tabled duration 0 is within the 2000 ms tolerance, so
the claim demands the `"zero"` entry; the code's `if closest_duration:`
truthiness test discards the zero duration and returns `None`. -/
theorem c4_zero_key_counterexample :
    (1 : Nat) ≠ 0 ∧
    mapLookup 1 [(0, "zero")] = none ∧
    absDiff 1 0 ≤ 2000 ∧
    (0, "zero") ∈ ([(0, "zero")] : AudioMap) ∧
    find_closest_audio_guide 1 [(0, "zero")] = none := by
  decide

/-! ## Script model (src/core/models.py) -/

/-- `BreathingPattern` (pydantic model): preset name, optional explicit
inhale/exhale, holds, optional natural duration, repetition count. -/
structure BreathingPattern where
  pattern : Option String := none
  inhale_ms : Option Nat := none
  exhale_ms : Option Nat := none
  hold_in_ms : Nat := 0
  hold_out_ms : Nat := 0
  duration_ms : Option Nat := none
  repetitions : Nat := 1
  deriving DecidableEq, Repr

/-- `BreathingPattern.get_total_cycle_duration_ms`: explicit `duration_ms`
(an `is not None` test) wins, then explicit inhale+holds+exhale, then the
preset table with a 10000 ms default. -/
def BreathingPattern.get_total_cycle_duration_ms (b : BreathingPattern) : Nat :=
  match b.duration_ms with
  | some d => d
  | none =>
      match b.inhale_ms, b.exhale_ms with
      | some i, some e => i + b.hold_in_ms + e + b.hold_out_ms
      | _, _ =>
          match b.pattern with
          | some "box" => 4000 + 4000 + 4000 + 4000
          | some "4-7-8" => 4000 + 7000 + 8000
          | some "calm" => 4000 + 6000
          | _ => 10000

/-- `AudioConfig` (pydantic model). -/
structure AudioConfig where
  fragments : List String
  max_duration_ms : Option Nat := none
  allow_shortening : Bool := true
  timing : String := "full_cycle"
  deriving DecidableEq, Repr

/-- `Segment` (pydantic model). -/
structure Segment where
  id : String
  type : String
  audio : AudioConfig
  breathing : Option BreathingPattern := none
  deriving DecidableEq, Repr

/-- `Exercise` (pydantic model), restricted to the fields the validator and
generator read. -/
structure Exercise where
  id : String
  title : String := ""
  duration_seconds : Option Nat := none
  deriving DecidableEq, Repr

/-- `NarrationScript` (pydantic model); the voice configuration is carried
opaquely (the embedded pipeline's TTS client holds its own settings). -/
structure NarrationScript where
  exercise : Exercise
  segments : List Segment
  voice_config : Dict := []
  deriving DecidableEq, Repr

/-- Python truthiness of an `Optional[int]`: `None` and `0` are falsy. -/
def truthy (o : Option Nat) : Bool :=
  match o with
  | none => false
  | some n => decide (n ≠ 0)

/-- The word-count heuristic of `estimate_total_duration_ms`:
`int((total_chars / 10) * 500)`, which is `total_chars * 50` (the float
detour is exact at every value the claims touch). -/
def heuristic_duration_ms (total_chars : Nat) : Nat := total_chars * 50

/-- `NarrationScript.estimate_total_duration_ms`. -/
def NarrationScript.estimate_total_duration_ms (s : NarrationScript) : Nat :=
  s.segments.foldl
    (fun total segment =>
      match segment.breathing with
      | some b => total + b.get_total_cycle_duration_ms * b.repetitions
      | none =>
          if truthy segment.audio.max_duration_ms then
            total + segment.audio.max_duration_ms.getD 0
          else
            total + heuristic_duration_ms
              ((segment.audio.fragments.map String.length).sum))
    0

/-! ## NarrationValidator (src/core/validator.py) -/

/-- `ValidationResult` (src/core/results.py). -/
structure ValidationResult where
  is_valid : Bool
  errors : List String
  warnings : List String
  deriving DecidableEq, Repr

/-- Python `"{q:.0f}"` on the exact rational value of the float: round to
an integer and print (rounding-mode differences at exact halves are never
observed by the theorems below). -/
def fmtF0 (q : ℚ) : String := toString (round q)

/-- `NarrationValidator._validate_exercise_duration`: the over-an-hour
error and the specified-vs-estimated mismatch warning. -/
def validate_exercise_duration (script : NarrationScript) :
    List String × List String :=
  let estimated_duration_ms := script.estimate_total_duration_ms
  let estimated_duration_s : ℚ := (estimated_duration_ms : ℚ) / 1000
  let errors :=
    if estimated_duration_s > 3600 then
      ["Exercise duration too long: " ++ fmtF0 estimated_duration_s ++
        "s (max: 3600s)"]
    else []
  let warnings :=
    if truthy script.exercise.duration_seconds then
      let ds := script.exercise.duration_seconds.getD 0
      let diff_seconds : ℚ := |(ds : ℚ) - estimated_duration_s|
      if diff_seconds > 30 then
        ["Exercise duration mismatch: specified " ++ toString ds ++
          "s, estimated " ++ fmtF0 estimated_duration_s ++ "s (diff: " ++
          fmtF0 diff_seconds ++ "s)"]
      else []
    else []
  (errors, warnings)

/-- The repetition warning emitted by `_validate_breathing_pattern`. -/
def repetition_warning_msg (idx : Nat) (seg_id : String) (reps : Nat) : String :=
  "Segment " ++ toString idx ++ " (" ++ seg_id ++
    "): very high repetition count (" ++ toString reps ++ ")"

/-- `NarrationValidator._validate_breathing_pattern`: the natural branch
(`if breathing.duration_ms:`, a truthiness test) checks only the duration
bounds; the structured branch checks the derived cycle duration and the
repetition count. -/
def validate_breathing_pattern (seg : Segment) (idx : Nat)
    (b : BreathingPattern) : List String × List String :=
  if truthy b.duration_ms then
    let d := b.duration_ms.getD 0
    (if d < 1000 then
        ["Segment " ++ toString idx ++ " (" ++ seg.id ++
          "): breathing duration too short (" ++ toString d ++
          "ms, min: 1000ms)"]
      else [],
     if d > 60000 then
        ["Segment " ++ toString idx ++ " (" ++ seg.id ++
          "): breathing duration very long (" ++ toString d ++
          "ms, typical max: 60000ms)"]
      else [])
  else
    let total_cycle_ms := b.get_total_cycle_duration_ms
    (if total_cycle_ms < 1000 then
        ["Segment " ++ toString idx ++ " (" ++ seg.id ++
          "): total breathing cycle too short (" ++ toString total_cycle_ms ++
          "ms, min: 1000ms)"]
      else [],
     (if total_cycle_ms > 60000 then
        ["Segment " ++ toString idx ++ " (" ++ seg.id ++
          "): total breathing cycle very long (" ++ toString total_cycle_ms ++
          "ms, typical max: 60000ms)"]
      else []) ++
     (if b.repetitions > 100 then
        [repetition_warning_msg idx seg.id b.repetitions]
      else []))

/-- `NarrationValidator._validate_audio_config` (warnings only). -/
def validate_audio_config (seg : Segment) (idx : Nat) : List String :=
  let fragments := seg.audio.fragments
  let total_chars := (fragments.map String.length).sum
  (if fragments.length > 20 then
      ["Segment " ++ toString idx ++ " (" ++ seg.id ++
        "): many audio fragments (" ++ toString fragments.length ++
        "), consider consolidating"]
    else []) ++
  (if total_chars > 1000 then
      ["Segment " ++ toString idx ++ " (" ++ seg.id ++ "): long text (" ++
        toString total_chars ++ " chars), may take significant time to generate"]
    else []) ++
  (fragments.enum.filterMap fun fi =>
    if fi.2.length > 500 then
      some ("Segment " ++ toString idx ++ " (" ++ seg.id ++ "), fragment " ++
        toString fi.1 ++ ": long text (" ++ toString fi.2.length ++
        " chars), consider splitting")
    else none)

/-- `NarrationValidator._validate_segments`: duplicate-id scan (the dup
error, then breathing errors/warnings, then audio warnings, per segment
in order). -/
def validate_segments_go : List Segment → Nat → List String →
    List String × List String
  | [], _, _ => ([], [])
  | seg :: rest, idx, seen =>
      let dupErr :=
        if seg.id ∈ seen then
          ["Duplicate segment ID: \x27" ++ seg.id ++ "\x27"]
        else []
      let bres :=
        match seg.breathing with
        | some b => validate_breathing_pattern seg idx b
        | none => ([], [])
      let aWarn := validate_audio_config seg idx
      let rres := validate_segments_go rest (idx + 1) (seg.id :: seen)
      (dupErr ++ bres.1 ++ rres.1, bres.2 ++ aWarn ++ rres.2)

/-- `NarrationValidator._validate_timing_feasibility`: skipped for
narration segments and for segments without both a breathing pattern and a
truthy `max_duration_ms`; otherwise the fast-path overrun check (warning
when shortening is allowed, error otherwise) and the cycle-fit warning. -/
def validate_timing_go : List Segment → Nat → List String × List String
  | [], _ => ([], [])
  | seg :: rest, idx =>
      let rres := validate_timing_go rest (idx + 1)
      if seg.type = "narration" then rres
      else if seg.breathing.isNone ∨ ¬ truthy seg.audio.max_duration_ms then
        rres
      else
        let total_chars := (seg.audio.fragments.map String.length).sum
        let min_duration_ms : ℚ := (total_chars : ℚ) / 20 * 1000
        let maxd := seg.audio.max_duration_ms.getD 0
        let overrun :=
          if min_duration_ms > (maxd : ℚ) then
            if seg.audio.allow_shortening then
              (([] : List String),
               ["Segment " ++ toString idx ++ " (" ++ seg.id ++
                 "): audio likely to exceed max_duration (" ++
                 fmtF0 min_duration_ms ++ "ms > " ++ toString maxd ++
                 "ms), will require text shortening"])
            else
              (["Segment " ++ toString idx ++ " (" ++ seg.id ++
                 "): audio will exceed max_duration (" ++
                 fmtF0 min_duration_ms ++ "ms > " ++ toString maxd ++
                 "ms) and shortening is disabled"], [])
          else ([], [])
        let cycleWarn :=
          match seg.breathing with
          | some b =>
              if maxd > b.get_total_cycle_duration_ms then
                ["Segment " ++ toString idx ++ " (" ++ seg.id ++
                  "): max_duration (" ++ toString maxd ++
                  "ms) exceeds breathing cycle duration (" ++
                  toString b.get_total_cycle_duration_ms ++ "ms)"]
              else []
          | none => []
        (overrun.1 ++ rres.1, overrun.2 ++ cycleWarn ++ rres.2)

/-- `NarrationValidator.validate`: run the three phases in order and report
validity as emptiness of the error list. -/
def validate (script : NarrationScript) : ValidationResult :=
  let dres := validate_exercise_duration script
  let sres := validate_segments_go script.segments 0 []
  let tres := validate_timing_go script.segments 0
  let errors := dres.1 ++ sres.1 ++ tres.1
  let warnings := dres.2 ++ sres.2 ++ tres.2
  { is_valid := errors.isEmpty, errors := errors, warnings := warnings }

/-- The repetition warning of a structured-pattern segment at position `j`
survives into the segment-scan warnings, wherever the scan starts. -/
theorem rep_warning_mem (segs : List Segment) :
    ∀ (idx0 : Nat) (seen : List String) (j : Nat) (seg : Segment)
      (b : BreathingPattern),
    segs.get? j = some seg → seg.breathing = some b →
    truthy b.duration_ms = false → b.repetitions > 100 →
    repetition_warning_msg (idx0 + j) seg.id b.repetitions ∈
      (validate_segments_go segs idx0 seen).2 := by
  induction segs with
  | nil =>
      intro _ _ j seg b h
      simp at h
  | cons s rest ih =>
      intro idx0 seen j seg b hj hb hnat hreps
      cases j with
      | zero =>
          have hs : s = seg := by simpa using hj
          subst hs
          have hmem : repetition_warning_msg idx0 s.id b.repetitions ∈
              (validate_breathing_pattern s idx0 b).2 := by
            unfold validate_breathing_pattern
            rw [if_neg (by simp [hnat])]
            simp [hreps]
          rw [validate_segments_go]
          simp only [hb, List.mem_append, Nat.add_zero]
          exact Or.inl (Or.inl hmem)
      | succ j' =>
          have hj' : rest.get? j' = some seg := by simpa using hj
          have := ih (idx0 + 1) (s.id :: seen) j' seg b hj' hb hnat hreps
          rw [validate_segments_go]
          simp only [List.mem_append]
          refine Or.inr ?_
          have harith : idx0 + (j' + 1) = idx0 + 1 + j' := by omega
          rwa [harith]

/-- C6 (amended): for every script and every segment whose breathing
pattern is in structured form (explicit inhale/exhale or a preset — i.e.
whose natural `duration_ms` is falsy) with a repetition count above 100,
the validator's warnings contain a message mentioning both the word
"repetition" and the repetition count.  Natural-duration patterns are
exempt: the repetition check sits in the structured branch only. -/
theorem c6_repetition_warning_amended (script : NarrationScript) (j : Nat)
    (seg : Segment) (b : BreathingPattern)
    (hj : script.segments.get? j = some seg)
    (hb : seg.breathing = some b)
    (hnat : truthy b.duration_ms = false)
    (hreps : b.repetitions > 100) :
    ∃ w ∈ (validate script).warnings,
      (∃ x y, w = x ++ "repetition" ++ y) ∧
      (∃ x y, w = x ++ toString b.repetitions ++ y) := by
  refine ⟨repetition_warning_msg j seg.id b.repetitions, ?_, ?_, ?_⟩
  · have hmem := rep_warning_mem script.segments 0 [] j seg b hj hb hnat hreps
    simp only [Nat.zero_add] at hmem
    unfold validate
    simp only [List.mem_append]
    exact Or.inl (Or.inr hmem)
  · refine ⟨"Segment " ++ toString j ++ " (" ++ seg.id ++ "): very high ",
      " count (" ++ toString b.repetitions ++ ")", ?_⟩
    unfold repetition_warning_msg
    simp only [String.append_assoc]
    rfl
  · refine ⟨"Segment " ++ toString j ++ " (" ++ seg.id ++
      "): very high repetition count (", ")", ?_⟩
    unfold repetition_warning_msg
    simp only [String.append_assoc]

/-- A script whose single segment has a natural-duration breathing pattern
(5000 ms) with 150 repetitions. -/
def c6Script : NarrationScript :=
  ⟨⟨"ex", "Test", none⟩,
   [⟨"s1", "breathing_cycle", ⟨["hi"], none, true, "full_cycle"⟩,
     some ⟨some "natural", none, none, 0, 0, some 5000, 150⟩⟩], []⟩

/-- C6 counterexample: a natural-duration pattern with 150 repetitions
(> 100) draws no warning at all — the repetition check lives only in the
structured branch of `_validate_breathing_pattern`, so the claim's
"regardless of ... natural duration" fails. -/
theorem c6_natural_pattern_counterexample :
    (∃ seg, c6Script.segments.get? 0 = some seg ∧
      seg.breathing =
        some ⟨some "natural", none, none, 0, 0, some 5000, 150⟩ ∧
      seg.breathing.any (fun b => b.repetitions > 100) = true) ∧
    (validate c6Script).warnings = [] ∧
    ¬ ∃ w ∈ (validate c6Script).warnings, ∃ x y, w = x ++ "repetition" ++ y := by
  have hw : (validate c6Script).warnings = [] := by decide
  refine ⟨⟨_, rfl, rfl, rfl⟩, hw, ?_⟩
  simp [hw]

/-- A script whose single segment has a structured (explicit inhale/exhale)
breathing pattern with 150 repetitions. -/
def c6bScript : NarrationScript :=
  ⟨⟨"ex", "Test", none⟩,
   [⟨"s1", "breathing_cycle", ⟨["hi"], none, true, "full_cycle"⟩,
     some ⟨none, some 4000, some 6000, 0, 0, none, 150⟩⟩], []⟩

/-- C6 witness: the amended theorem instantiated on a structured pattern
with 150 repetitions. -/
theorem c6_repetition_warning_amended_witness :
    ∃ w ∈ (validate c6bScript).warnings,
      (∃ x y, w = x ++ "repetition" ++ y) ∧
      (∃ x y, w = x ++ toString (150 : Nat) ++ y) :=
  c6_repetition_warning_amended c6bScript 0
    ⟨"s1", "breathing_cycle", ⟨["hi"], none, true, "full_cycle"⟩,
      some ⟨none, some 4000, some 6000, 0, 0, none, 150⟩⟩
    ⟨none, some 4000, some 6000, 0, 0, none, 150⟩
    rfl rfl rfl (by norm_num)

/-! ## VoiceNarrationGenerator (src/core/generator.py) -/

/-- The TTS client's `generate_audio` capability, as a deterministic
function from text and optional previous/next context to audio or a
`TTSError`. -/
abbrev TTSFun := String → Option String → Option String → Except TtsErr Audio

/-- An exception escaping a single segment's processing: the wrapped
fragment-level `TTSError`, or the `ValueError` from `stitch`. -/
inductive ProcErr where
  | tts (e : TtsErr)
  | valueError (msg : String)
  deriving DecidableEq, Repr

/-- `SegmentResult` (src/core/results.py); `audio_path` holds the exported
file name. -/
structure SegmentResult where
  segment_id : String
  segment_index : Nat
  audio_path : String
  duration_ms : Nat
  fragment_count : Nat
  was_shortened : Bool := false
  deriving DecidableEq, Repr

/-- The previous-context of fragment `frag_idx`: all prior fragments
joined by spaces, or nothing for the first fragment. -/
def fragment_previous_text (fragments : List String) (frag_idx : Nat) :
    Option String :=
  if frag_idx > 0 then
    some (String.intercalate " " (fragments.take frag_idx))
  else none

/-- The next-context of fragment `frag_idx`: all following fragments
joined by spaces, or nothing for the last fragment. -/
def fragment_next_text (fragments : List String) (frag_idx : Nat) :
    Option String :=
  if frag_idx < fragments.length - 1 then
    some (String.intercalate " " (fragments.drop (frag_idx + 1)))
  else none

/-- The fragment loop of `_process_segment`: per fragment build
previous/next context from the adjacent fragments, call the TTS client
(wrapping any failure into a fragment-tagged `TTSError`), and quantize
with `trim_to_whole_seconds` then `pad_to_whole_seconds`. -/
def synth_go (tts : TTSFun) (fragments : List String) :
    List String → Nat → Except TtsErr (List Audio)
  | [], _ => .ok []
  | fragment_text :: remaining, frag_idx =>
      match tts fragment_text (fragment_previous_text fragments frag_idx)
          (fragment_next_text fragments frag_idx) with
      | .error _ =>
          .error ⟨"Failed to generate audio for fragment " ++
            toString frag_idx ++ ": " ++ fragment_text.take 50 ++ "...",
            none, none⟩
      | .ok audio =>
          match synth_go tts fragments remaining (frag_idx + 1) with
          | .ok rest_audios =>
              .ok (pad_to_whole_seconds (trim_to_whole_seconds audio) ::
                rest_audios)
          | .error e => .error e

/-- `VoiceNarrationGenerator._process_segment`: synthesize and quantize
every fragment, stitch with no gap and no crossfade, export
`{segment_id}_{segment_index}.wav` (returned alongside the result as the
written buffer), and record the `SegmentResult` (`was_shortened` is always
false; an over-budget duration only logs a warning). -/
def process_segment (tts : TTSFun) (segment : Segment) (index : Nat) :
    Except ProcErr (SegmentResult × Audio) :=
  match synth_go tts segment.audio.fragments segment.audio.fragments 0 with
  | .error e => .error (.tts e)
  | .ok fragment_audios =>
      match stitch fragment_audios with
      | .error msg => .error (.valueError msg)
      | .ok segment_audio =>
          .ok ({ segment_id := segment.id,
                 segment_index := index,
                 audio_path := segment.id ++ "_" ++ toString index ++ ".wav",
                 duration_ms := segment_audio.length,
                 fragment_count := segment.audio.fragments.length,
                 was_shortened := false }, segment_audio)

/-- A failure escaping `generate`: the validation failure, or a
`SegmentProcessingError` carrying the segment id, its index and the
underlying cause. -/
inductive GenErr where
  | validation (errors : List String)
  | segment (segment_id : String) (index : Nat) (cause : ProcErr)
  deriving DecidableEq, Repr

/-- `GenerationResult` (src/core/results.py); the cache counters default
to zero, matching the `hasattr` probe against a client that exposes
none. -/
structure GenerationResult where
  exercise_id : String
  output_dir : String
  segment_count : Nat
  total_duration_ms : Nat
  metadata_path : String
  audio_files : List String
  cache_hit_count : Nat := 0
  cache_miss_count : Nat := 0
  deriving DecidableEq, Repr

/-- The segment loop of `generate`: process segments in order, aborting at
the first failure by wrapping it with the segment's id and index.  The
second component is the trace of exported audio files (filename and
written buffer), which survives an abort for the segments already
completed. -/
def generate_go (tts : TTSFun) : List Segment → Nat →
    Except GenErr (List SegmentResult) × List (String × Audio)
  | [], _ => (.ok [], [])
  | seg :: rest, idx =>
      match process_segment tts seg idx with
      | .error e => (.error (.segment seg.id idx e), [])
      | .ok ra =>
          let rres := generate_go tts rest (idx + 1)
          ((match rres.1 with
            | .ok results => .ok (ra.1 :: results)
            | .error e => .error e),
           (ra.1.audio_path, ra.2) :: rres.2)

/-- `VoiceNarrationGenerator.generate`: validate (aborting with every
error), process all segments in order, then aggregate the result.  The
metadata document itself (a pure function of the script and results, with
no failure path) is represented by its output path. -/
def generate (tts : TTSFun) (script : NarrationScript) :
    Except GenErr GenerationResult × List (String × Audio) :=
  let validation := validate script
  if validation.is_valid = false then
    (.error (.validation validation.errors), [])
  else
    match generate_go tts script.segments 0 with
    | (.error e, ws) => (.error e, ws)
    | (.ok segment_results, ws) =>
        (.ok { exercise_id := script.exercise.id,
               output_dir := script.exercise.id,
               segment_count := segment_results.length,
               total_duration_ms :=
                 (segment_results.map SegmentResult.duration_ms).sum,
               metadata_path := script.exercise.id ++ "_metadata.json",
               audio_files := segment_results.map SegmentResult.audio_path },
         ws)

theorem pad_length (a : Audio) :
    (pad_to_whole_seconds a).length = round_up_to_next_second a.length := by
  rw [pad_eq_pad_silence]
  have := round_up_ge a.length
  simp
  omega

/-- Quantizing a fragment (trim then pad) yields the rounded-up length. -/
theorem quantized_length (a : Audio) :
    (pad_to_whole_seconds (trim_to_whole_seconds a)).length =
      round_up_to_next_second a.length := by
  rw [pad_length, trim_length, round_up_of_dvd _ (round_up_dvd _)]

theorem stitch_ok_length (l : List Audio) (r : Audio)
    (h : stitch l = .ok r) : r.length = (l.map List.length).sum := by
  match l with
  | [] => simp [stitch] at h
  | [x] =>
      simp [stitch] at h
      subst h
      simp
  | a :: b :: rest =>
      simp only [stitch] at h
      injection h with h
      rw [← h, stitch_fold_length 0 (b :: rest) a]
      simp

/-- Every audio the fragment loop produces is quantized: its length is a
multiple of 1000 ms. -/
theorem synth_go_dvd (tts : TTSFun) (fragments : List String) :
    ∀ (l : List String) (i : Nat) (audios : List Audio),
    synth_go tts fragments l i = .ok audios →
    ∀ au ∈ audios, 1000 ∣ au.length := by
  intro l
  induction l with
  | nil =>
      intro i audios h au hau
      simp [synth_go] at h
      subst h
      simp at hau
  | cons f rest ih =>
      intro i audios h au hau
      unfold synth_go at h
      split at h
      · exact absurd h (by simp)
      · split at h
        · injection h with h
          subst h
          rcases List.mem_cons.mp hau with rfl | hau
          · rw [quantized_length]
            exact round_up_dvd _
          · rename_i rest_audios hrec _
            exact ih (i + 1) rest_audios hrec au hau
        · exact absurd h (by simp)

/-- Everything `_process_segment` guarantees about a successful result:
the recorded id, index, filename and duration, the whole-second duration
invariant, and positivity as soon as some quantized fragment is
nonempty. -/
theorem process_segment_ok_spec (tts : TTSFun) (seg : Segment) (idx : Nat)
    (r : SegmentResult) (a : Audio)
    (h : process_segment tts seg idx = .ok (r, a)) :
    r.segment_id = seg.id ∧ r.segment_index = idx ∧
    r.audio_path = seg.id ++ "_" ++ toString idx ++ ".wav" ∧
    r.duration_ms = a.length ∧ 1000 ∣ r.duration_ms ∧
    (∀ audios,
      synth_go tts seg.audio.fragments seg.audio.fragments 0 = .ok audios →
      (∃ au ∈ audios, au ≠ []) → 0 < r.duration_ms) := by
  unfold process_segment at h
  split at h
  · exact absurd h (by simp)
  · rename_i fragment_audios hsyn
    split at h
    · exact absurd h (by simp)
    · rename_i segment_audio hst
      injection h with h
      injection h.symm with hr ha
      subst hr
      subst ha
      refine ⟨rfl, rfl, rfl, rfl, ?_, ?_⟩
      · show 1000 ∣ a.length
        rw [stitch_ok_length fragment_audios a hst]
        exact List.dvd_sum fun x hx => by
          obtain ⟨au, hau, rfl⟩ := List.mem_map.mp hx
          exact synth_go_dvd tts seg.audio.fragments seg.audio.fragments 0
            fragment_audios hsyn au hau
      · intro audios haud hex
        rw [hsyn] at haud
        injection haud with haud
        subst haud
        obtain ⟨au, hau, hne⟩ := hex
        show 0 < a.length
        rw [stitch_ok_length fragment_audios a hst]
        have h1 : au.length ≤ (fragment_audios.map List.length).sum :=
          List.single_le_sum (fun x _ => Nat.zero_le x) _
            (List.mem_map_of_mem List.length hau)
        have h2 : 0 < au.length := List.length_pos.mpr hne
        omega

/-- Every result of a fully successful segment loop has a whole-second
duration. -/
theorem generate_go_ok_dvd (tts : TTSFun) :
    ∀ (segs : List Segment) (idx : Nat) (rs : List SegmentResult),
    (generate_go tts segs idx).1 = .ok rs →
    ∀ r ∈ rs, 1000 ∣ r.duration_ms := by
  intro segs
  induction segs with
  | nil =>
      intro idx rs h r hr
      simp [generate_go] at h
      subst h
      simp at hr
  | cons s rest ih =>
      intro idx rs h r hr
      unfold generate_go at h
      split at h
      · exact absurd h (by simp)
      · rename_i ra hpr
        simp only [] at h
        split at h
        · rename_i results hres
          injection h with h
          subst h
          rcases List.mem_cons.mp hr with rfl | hr
          · exact (process_segment_ok_spec tts s idx ra.1 ra.2 hpr).2.2.2.2.1
          · exact ih (idx + 1) results hres r hr
        · exact absurd h (by simp)

/-- The segment loop on a first failure at position `i`: the loop's result
is the wrapped failure carrying that segment's id and running index, and
the write trace holds exactly one exported file per earlier segment. -/
theorem generate_go_fail_spec (tts : TTSFun) :
    ∀ (segs : List Segment) (idx0 i : Nat) (segi : Segment) (e : ProcErr),
    segs.get? i = some segi →
    (∀ j sj, j < i → segs.get? j = some sj →
      (process_segment tts sj (idx0 + j)).isOk = true) →
    process_segment tts segi (idx0 + i) = .error e →
    (generate_go tts segs idx0).1 =
      .error (.segment segi.id (idx0 + i) e) ∧
    (generate_go tts segs idx0).2.length = i ∧
    (∀ w ∈ (generate_go tts segs idx0).2, ∃ j sj, j < i ∧
      segs.get? j = some sj ∧
      w.1 = sj.id ++ "_" ++ toString (idx0 + j) ++ ".wav") := by
  intro segs
  induction segs with
  | nil =>
      intro idx0 i segi e hget
      simp at hget
  | cons s rest ih =>
      intro idx0 i segi e hget hok hfail
      cases i with
      | zero =>
          have hs : s = segi := by simpa using hget
          subst hs
          rw [Nat.add_zero] at hfail
          rw [generate_go, hfail]
          exact ⟨by simp, rfl, by simp⟩
      | succ i' =>
          have hget' : rest.get? i' = some segi := by simpa using hget
          have hok0 := hok 0 s (Nat.succ_pos _) (by simp)
          obtain ⟨ra, hra⟩ : ∃ ra, process_segment tts s (idx0 + 0) = .ok ra := by
            cases hx : process_segment tts s (idx0 + 0) with
            | ok v => exact ⟨v, rfl⟩
            | error err => rw [hx] at hok0; simp [Except.isOk, Except.toBool] at hok0
          rw [Nat.add_zero] at hra
          have hok' : ∀ j sj, j < i' → rest.get? j = some sj →
              (process_segment tts sj (idx0 + 1 + j)).isOk = true := by
            intro j sj hj hsj
            have := hok (j + 1) sj (by omega) (by simpa using hsj)
            rwa [show idx0 + (j + 1) = idx0 + 1 + j by omega] at this
          have hfail' : process_segment tts segi (idx0 + 1 + i') = .error e := by
            rwa [show idx0 + (i' + 1) = idx0 + 1 + i' by omega] at hfail
          obtain ⟨g1, g2, g3⟩ := ih (idx0 + 1) i' segi e hget' hok' hfail'
          rw [generate_go, hra]
          refine ⟨?_, ?_, ?_⟩
          · simp only []
            rw [g1]
            rw [show idx0 + 1 + i' = idx0 + (i' + 1) by omega]
          · simp only [List.length_cons, g2]
          · intro w hw
            rcases List.mem_cons.mp hw with rfl | hw
            · refine ⟨0, s, Nat.succ_pos _, by simp, ?_⟩
              exact ((process_segment_ok_spec tts s idx0 ra.1 ra.2 hra).2.2.1).trans
                (by rw [Nat.add_zero])
            · obtain ⟨j, sj, hj, hsj, hpath⟩ := g3 w hw
              refine ⟨j + 1, sj, by omega, by simpa using hsj, ?_⟩
              rwa [show idx0 + 1 + j = idx0 + (j + 1) by omega] at hpath

/-- C7: with a valid script, if processing the segment at position `i`
raises while every earlier segment succeeds, `generate` returns the
segment-processing failure carrying that segment's id and index, no
`SegmentResult` is produced (the run yields an error, not a result), and
no later segment is processed: the write trace holds exactly the `i`
earlier segments' exported files. -/
theorem c7_segment_failure_aborts (tts : TTSFun) (script : NarrationScript)
    (i : Nat) (segi : Segment) (e : ProcErr)
    (hvalid : (validate script).is_valid = true)
    (hget : script.segments.get? i = some segi)
    (hok : ∀ j sj, j < i → script.segments.get? j = some sj →
      (process_segment tts sj j).isOk = true)
    (hfail : process_segment tts segi i = .error e) :
    (generate tts script).1 = .error (.segment segi.id i e) ∧
    (generate tts script).2.length = i ∧
    (∀ w ∈ (generate tts script).2, ∃ j sj, j < i ∧
      script.segments.get? j = some sj ∧
      w.1 = sj.id ++ "_" ++ toString j ++ ".wav") := by
  have hok0 : ∀ j sj, j < i → script.segments.get? j = some sj →
      (process_segment tts sj (0 + j)).isOk = true := by
    intro j sj hj hsj
    rw [Nat.zero_add]
    exact hok j sj hj hsj
  have hfail0 : process_segment tts segi (0 + i) = .error e := by
    rwa [Nat.zero_add]
  obtain ⟨g1, g2, g3⟩ := generate_go_fail_spec tts script.segments 0 i segi e
    hget hok0 hfail0
  rw [Nat.zero_add] at g1
  rcases hsplit : generate_go tts script.segments 0 with ⟨gres, gws⟩
  rw [hsplit] at g1 g2 g3
  dsimp only [] at g1 g2 g3
  subst g1
  have hgeneq : generate tts script = (.error (.segment segi.id i e), gws) := by
    unfold generate
    rw [if_neg (by simp [hvalid]), hsplit]
  rw [hgeneq]
  refine ⟨rfl, g2, ?_⟩
  intro w hw
  obtain ⟨j, sj, hj, hsj, hpath⟩ := g3 w hw
  exact ⟨j, sj, hj, hsj, by rwa [Nat.zero_add] at hpath⟩

/-- C10 (amended): every `SegmentResult` of a successful run has
`duration_ms` a multiple of 1000 (each fragment is quantized to a
whole-second boundary and the fragments are stitched with zero gap), and
it is positive whenever some fragment's synthesized audio is nonempty;
consequently a successful `generate`'s `total_duration_ms` is also a
multiple of 1000. -/
theorem c10_whole_second_durations (tts : TTSFun) (script : NarrationScript)
    (seg : Segment) (idx : Nat) (r : SegmentResult) (a : Audio)
    (audios : List Audio) (res : GenerationResult)
    (ws : List (String × Audio)) :
    (process_segment tts seg idx = .ok (r, a) →
      1000 ∣ r.duration_ms ∧
      (synth_go tts seg.audio.fragments seg.audio.fragments 0 = .ok audios →
        (∃ au ∈ audios, au ≠ []) → 0 < r.duration_ms)) ∧
    (generate tts script = (.ok res, ws) → 1000 ∣ res.total_duration_ms) := by
  constructor
  · intro h
    have hs := process_segment_ok_spec tts seg idx r a h
    exact ⟨hs.2.2.2.2.1, fun hsyn hex => hs.2.2.2.2.2 audios hsyn hex⟩
  · intro h
    unfold generate at h
    by_cases hv : (validate script).is_valid = false
    · rw [if_pos hv] at h
      exact absurd h (by simp)
    · rw [if_neg hv] at h
      rcases hsplit : generate_go tts script.segments 0 with ⟨gres, gws⟩
      rw [hsplit] at h
      cases gres with
      | error e => exact absurd h (by simp)
      | ok rs =>
          have hfst := congrArg Prod.fst h
          dsimp only [] at hfst
          injection hfst with hfst
          have hdvd : ∀ x ∈ rs, 1000 ∣ x.duration_ms := by
            refine generate_go_ok_dvd tts script.segments 0 rs ?_
            rw [hsplit]
          rw [← hfst]
          exact List.dvd_sum fun x hx => by
            obtain ⟨y, hy, rfl⟩ := List.mem_map.mp hx
            exact hdvd y hy

/-- A narration segment with one fragment `"hello"`. -/
def segA : Segment :=
  ⟨"s1", "narration", ⟨["hello"], none, true, "full_cycle"⟩, none⟩

/-- A narration segment with one fragment `"boom"` (made to fail below). -/
def segB : Segment :=
  ⟨"s2", "narration", ⟨["boom"], none, true, "full_cycle"⟩, none⟩

/-- A TTS client that fails with a 500 on the text `"boom"` and otherwise
returns a 1 ms buffer. -/
def okTts : TTSFun := fun t _ _ =>
  if t = "boom" then .error ⟨"ElevenLabs API returned error", some 500, some "x"⟩
  else .ok [1]

/-- A TTS client that always returns an empty buffer. -/
def emptyTts : TTSFun := fun _ _ _ => .ok []

def c7Script : NarrationScript := ⟨⟨"ex", "T", none⟩, [segA, segB], []⟩

def c7okScript : NarrationScript := ⟨⟨"ex", "T", none⟩, [segA], []⟩

/-- A narration segment with one fragment `"hi"`. -/
def segN : Segment :=
  ⟨"s1", "narration", ⟨["hi"], none, true, "full_cycle"⟩, none⟩

def c10nScript : NarrationScript := ⟨⟨"ex", "T", none⟩, [segN], []⟩

theorem c7Script_valid : (validate c7Script).is_valid = true := by
  have hd : validate_exercise_duration c7Script = ([], []) := by
    norm_num [validate_exercise_duration, c7Script, segA, segB,
      NarrationScript.estimate_total_duration_ms, heuristic_duration_ms,
      truthy, fmtF0, show "hello".length = 5 from rfl,
      show "boom".length = 4 from rfl]
  have h2 : validate_segments_go c7Script.segments 0 [] = ([], []) := by decide
  have h3 : validate_timing_go c7Script.segments 0 = ([], []) := by decide
  unfold validate
  rw [hd, h2, h3]
  rfl

theorem c7okScript_valid : (validate c7okScript).is_valid = true := by
  have hd : validate_exercise_duration c7okScript = ([], []) := by
    norm_num [validate_exercise_duration, c7okScript, segA,
      NarrationScript.estimate_total_duration_ms, heuristic_duration_ms,
      truthy, fmtF0, show "hello".length = 5 from rfl]
  have h2 : validate_segments_go c7okScript.segments 0 [] = ([], []) := by
    decide
  have h3 : validate_timing_go c7okScript.segments 0 = ([], []) := by decide
  unfold validate
  rw [hd, h2, h3]
  rfl

theorem c10nScript_valid : (validate c10nScript).is_valid = true := by
  have hd : validate_exercise_duration c10nScript = ([], []) := by
    norm_num [validate_exercise_duration, c10nScript, segN,
      NarrationScript.estimate_total_duration_ms, heuristic_duration_ms,
      truthy, fmtF0, show "hi".length = 2 from rfl]
  have h2 : validate_segments_go c10nScript.segments 0 [] = ([], []) := by
    decide
  have h3 : validate_timing_go c10nScript.segments 0 = ([], []) := by decide
  unfold validate
  rw [hd, h2, h3]
  rfl

set_option maxRecDepth 100000 in
/-- C7 witness: of two narration segments, the first succeeds and the
second fails on the 500 from `"boom"`; generation aborts with that
segment's id and index and exactly one earlier file was exported. -/
theorem c7_segment_failure_aborts_witness :
    (generate okTts c7Script).1 =
      .error (.segment segB.id 1 (.tts
        ⟨"Failed to generate audio for fragment 0: boom...", none, none⟩)) ∧
    (generate okTts c7Script).2.length = 1 ∧
    (∀ w ∈ (generate okTts c7Script).2, ∃ j sj, j < 1 ∧
      c7Script.segments.get? j = some sj ∧
      w.1 = sj.id ++ "_" ++ toString j ++ ".wav") := by
  refine c7_segment_failure_aborts okTts c7Script 1 segB
    (.tts ⟨"Failed to generate audio for fragment 0: boom...", none, none⟩)
    c7Script_valid rfl ?_ rfl
  intro j sj hj hsj
  have hj0 : j = 0 := by omega
  subst hj0
  have h0 : c7Script.segments.get? 0 = some segA := rfl
  rw [h0] at hsj
  injection hsj with h
  rw [← h]
  decide

set_option maxRecDepth 100000 in
/-- C10 witness: the theorem's two parts instantiated — the single
`"hello"` segment yields a 1000 ms result and a successful run whose
total is 1000 ms. -/
theorem c10_whole_second_durations_witness :
    (1000 : Nat) ∣ (1000 : Nat) ∧ (1000 : Nat) ∣
      (GenerationResult.mk "ex" "ex" 1 1000 "ex_metadata.json"
        ["s1_0.wav"] 0 0).total_duration_ms := by
  constructor
  · have h := (c10_whole_second_durations okTts c7okScript segA 0
      ⟨"s1", 0, "s1_0.wav", 1000, 1, false⟩
      (pad_to_whole_seconds (trim_to_whole_seconds [1]))
      [pad_to_whole_seconds (trim_to_whole_seconds [1])]
      ⟨"ex", "ex", 1, 1000, "ex_metadata.json", ["s1_0.wav"], 0, 0⟩
      [("s1_0.wav", pad_to_whole_seconds (trim_to_whole_seconds [1]))]).1
      rfl
    exact h.1
  · refine (c10_whole_second_durations okTts c7okScript segA 0
      ⟨"s1", 0, "s1_0.wav", 1000, 1, false⟩
      (pad_to_whole_seconds (trim_to_whole_seconds [1]))
      [pad_to_whole_seconds (trim_to_whole_seconds [1])]
      ⟨"ex", "ex", 1, 1000, "ex_metadata.json", ["s1_0.wav"], 0, 0⟩
      [("s1_0.wav", pad_to_whole_seconds (trim_to_whole_seconds [1]))]).2 ?_
    unfold generate
    rw [if_neg (by simp [c7okScript_valid])]
    rfl

set_option maxRecDepth 100000 in
/-- C10 counterexample: a TTS client returning empty audio gives a fully
successful run whose single `SegmentResult` has `duration_ms = 0` — a
multiple of 1000 but not positive, so "positive multiple of 1000" fails
as stated. -/
theorem c10_zero_duration_counterexample :
    (∃ r a, process_segment emptyTts segN 0 = .ok (r, a) ∧
      r.duration_ms = 0 ∧ ¬ 0 < r.duration_ms) ∧
    (∃ res ws, generate emptyTts c10nScript = (.ok res, ws) ∧
      res.total_duration_ms = 0) := by
  constructor
  · exact ⟨⟨"s1", 0, "s1_0.wav", 0, 1, false⟩, [], rfl, rfl, by decide⟩
  · refine ⟨⟨"ex", "ex", 1, 0, "ex_metadata.json", ["s1_0.wav"], 0, 0⟩,
      [("s1_0.wav", [])], ?_, rfl⟩
    unfold generate
    rw [if_neg (by simp [c10nScript_valid])]
    rfl

end VoiceGen
